import Mathlib

set_option linter.unusedVariables false
set_option linter.unnecessarySeqFocus false

deriving instance DecidableEq for Except

/-!
Formal model of the ce-drivers container-engine driver layer.

The Go sources embedded here are:
  - plug-ins/docker/docker.go  (docker backend)
  - plug-ins/podman/podman.go  (podman backend)
  - the main program (backend loader / orchestration driver)

Time is modelled discretely in abstract units.  Engine behaviour (inspect
results, exec outcomes, decode streams) is supplied as explicit parameters,
so every driver function is a pure function of the engine responses.
-/

/-- Errors as they flow through the modelled Go code.  The engine constructor
stands for any error value produced by the container engine or its client
library; deadlineExceeded is the context deadline error; drain is a read
failure inside a stream-drain goroutine. -/
inductive GoError where
  | engine (msg : String)
  | deadlineExceeded
  | drain (msg : String)
  deriving DecidableEq, Repr

/-! ## State-Wait Coordinator (docker.go ContainerWait, lines 314-330) -/

/-- Number of poll ticks that run before the context deadline fires.  The
ticker fires at times interval, 2*interval, ...; a tick at time t is processed
when t is strictly before timeout (a tick coinciding with the deadline is
modelled as losing to the deadline).  For interval = 0 the Go ticker would
panic; Nat division by zero yields 0 ticks. -/
def numTicks (timeout interval : Nat) : Nat := (timeout - 1) / interval

/-- Modelled from the behaviour of the external helper
skupperutils.RetryWithContext (skupperproject/skupper pkg/utils), called by
docker.go ContainerWait: on each ticker tick run the check function; a non-nil
error from the check is returned at once; true stops with success; otherwise
retry until the context deadline, whose context error (deadline exceeded) is
returned.  fuel counts the remaining ticks before the deadline and n is the
index of the current poll. -/
def retryWithContextAux (f : Nat → Bool × Option GoError) : Nat → Nat → Except GoError Unit
  | 0, _ => Except.error GoError.deadlineExceeded
  | Nat.succ fuel, n =>
    match f n with
    | (_, some e) => Except.error e
    | (true, none) => Except.ok ()
    | (false, none) => retryWithContextAux f fuel (n + 1)

def retryWithContext (timeout interval : Nat) (f : Nat → Bool × Option GoError) :
    Except GoError Unit :=
  retryWithContextAux f (numTicks timeout interval) 0

/-- The check closure passed by docker.go ContainerWait to RetryWithContext:
an inspect error is mapped to (false, nil) (keep retrying, error discarded);
otherwise the reported state string is compared to the target status with
exact string equality. -/
def dockerWaitCheck (inspect : Nat → Except GoError String) (target : String) (n : Nat) :
    Bool × Option GoError :=
  match inspect n with
  | Except.error _ => (false, none)
  | Except.ok st => (st == target, none)

/-- docker.go ContainerWait: poll the container state (inspect n is the result
of the n-th inspect call) every interval until the state equals target or the
timeout context expires. -/
def dockerContainerWait (inspect : Nat → Except GoError String) (target : String)
    (timeout interval : Nat) : Except GoError Unit :=
  retryWithContext timeout interval (dockerWaitCheck inspect target)

/-- The wait condition podman.go ContainerWait passes to the engine:
define.ContainerStateRunning, the fixed running state. -/
def podmanWaitCondition : String := "running"

/-- podman.go ContainerWait (lines 112-118): the status, timeout and interval
parameters are ignored; a single blocking engine wait for the fixed state
running is issued and its error (if any) returned. -/
def podmanContainerWait (engineWait : String → Except GoError Int)
    (status : String) (timeout interval : Nat) : Except GoError Unit :=
  match engineWait podmanWaitCondition with
  | Except.error e => Except.error e
  | Except.ok _ => Except.ok ()

/-- Modelled engine-side blocking wait (podman bindings containers.Wait) over
a state trace: it returns once the container reaches the requested state.
The model observes the trace up to a finite horizon; a wait that would block
forever is represented by an engine error. -/
def engineWaitFor (states : Nat → String) (horizon : Nat) (target : String) :
    Except GoError Int :=
  if (List.range horizon).any (fun t => states t == target) then Except.ok 0
  else Except.error (GoError.engine "wait blocked: state never reached")

/-- Whether the n-th poll observes the target state: false on an inspect
error, otherwise exact string equality with the target. -/
def pollHit (inspect : Nat → Except GoError String) (target : String) (n : Nat) : Bool :=
  match inspect n with
  | Except.error _ => false
  | Except.ok st => st == target

theorem dockerWaitCheck_eq_pollHit (inspect : Nat → Except GoError String) (target : String) :
    dockerWaitCheck inspect target = fun n => (pollHit inspect target n, none) := by
  funext n
  cases h : inspect n <;> simp [dockerWaitCheck, pollHit, h]

theorem pollHit_iff (inspect : Nat → Except GoError String) (target : String) (n : Nat) :
    pollHit inspect target n = true ↔ inspect n = Except.ok target := by
  cases h : inspect n <;> simp [pollHit, h, beq_iff_eq]

theorem retryAux_pure_ok_iff (g : Nat → Bool) :
    ∀ (fuel n : Nat),
      retryWithContextAux (fun m => (g m, none)) fuel n = Except.ok () ↔
        ∃ k, k < fuel ∧ g (n + k) = true := by
  intro fuel
  induction fuel with
  | zero =>
      intro n
      constructor
      · intro h
        simp [retryWithContextAux] at h
      · rintro ⟨k, hk, _⟩
        omega
  | succ fuel ih =>
      intro n
      constructor
      · intro h
        cases hg : g n with
        | true => exact ⟨0, by omega, by simpa using hg⟩
        | false =>
            have h2 : retryWithContextAux (fun m => (g m, none)) fuel (n + 1) = Except.ok () := by
              simpa [retryWithContextAux, hg] using h
            obtain ⟨k, hk, hks⟩ := (ih (n + 1)).mp h2
            refine ⟨k + 1, by omega, ?_⟩
            have harg : n + 1 + k = n + (k + 1) := by omega
            rwa [harg] at hks
      · rintro ⟨k, hk, hks⟩
        cases hg : g n with
        | true => simp [retryWithContextAux, hg]
        | false =>
            cases k with
            | zero =>
                rw [Nat.add_zero] at hks
                rw [hg] at hks
                exact absurd hks (by simp)
            | succ k =>
                have harg : n + (k + 1) = n + 1 + k := by omega
                rw [harg] at hks
                have h2 := (ih (n + 1)).mpr ⟨k, by omega, hks⟩
                simpa [retryWithContextAux, hg] using h2

theorem retryAux_pure_ok_or_deadline (g : Nat → Bool) :
    ∀ (fuel n : Nat),
      retryWithContextAux (fun m => (g m, none)) fuel n = Except.ok () ∨
        retryWithContextAux (fun m => (g m, none)) fuel n =
          Except.error GoError.deadlineExceeded := by
  intro fuel
  induction fuel with
  | zero =>
      intro n
      right
      rfl
  | succ fuel ih =>
      intro n
      cases hg : g n with
      | true =>
          left
          simp [retryWithContextAux, hg]
      | false =>
          rcases ih (n + 1) with h | h
          · left
            simpa [retryWithContextAux, hg] using h
          · right
            simpa [retryWithContextAux, hg] using h

theorem dockerContainerWait_ok_iff (inspect : Nat → Except GoError String) (target : String)
    (timeout interval : Nat) :
    dockerContainerWait inspect target timeout interval = Except.ok () ↔
      ∃ n, n < numTicks timeout interval ∧ inspect n = Except.ok target := by
  unfold dockerContainerWait retryWithContext
  rw [dockerWaitCheck_eq_pollHit]
  rw [retryAux_pure_ok_iff (pollHit inspect target) (numTicks timeout interval) 0]
  constructor
  · rintro ⟨k, hk, hks⟩
    refine ⟨k, hk, ?_⟩
    have := (pollHit_iff inspect target (0 + k)).mp hks
    simpa using this
  · rintro ⟨n, hn, hns⟩
    refine ⟨n, hn, ?_⟩
    rw [Nat.zero_add]
    exact (pollHit_iff inspect target n).mpr hns

/-- C1 (amended): the docker backend implements the claimed polling loop —
success exactly when some poll before the deadline reports a state string
exactly equal to the target, and otherwise the outcome is the deadline
timeout failure.  The podman backend does not implement the claimed
algorithm: its ContainerWait ignores the target state, the timeout and the
poll interval, issuing a single blocking engine wait for the fixed state
running, succeeding exactly when that engine wait does. -/
theorem container_wait_backends :
    (∀ (inspect : Nat → Except GoError String) (target : String) (timeout interval : Nat),
        dockerContainerWait inspect target timeout interval = Except.ok () ↔
          ∃ n, n < numTicks timeout interval ∧ inspect n = Except.ok target) ∧
    (∀ (inspect : Nat → Except GoError String) (target : String) (timeout interval : Nat),
        dockerContainerWait inspect target timeout interval = Except.ok () ∨
          dockerContainerWait inspect target timeout interval =
            Except.error GoError.deadlineExceeded) ∧
    (∀ (ew : String → Except GoError Int) (ta tb : String) (t1 t2 i1 i2 : Nat),
        podmanContainerWait ew ta t1 i1 = podmanContainerWait ew tb t2 i2) ∧
    (∀ (ew : String → Except GoError Int) (ta : String) (t i : Nat),
        podmanContainerWait ew ta t i = Except.ok () ↔
          ∃ c, ew podmanWaitCondition = Except.ok c) := by
  refine ⟨dockerContainerWait_ok_iff, ?_, ?_, ?_⟩
  · intro inspect target timeout interval
    unfold dockerContainerWait retryWithContext
    rw [dockerWaitCheck_eq_pollHit]
    exact retryAux_pure_ok_or_deadline (pollHit inspect target) (numTicks timeout interval) 0
  · intro ew ta tb t1 t2 i1 i2
    rfl
  · intro ew ta t i
    unfold podmanContainerWait
    cases h : ew podmanWaitCondition <;> simp

/-- C1 (counterexample): a container whose engine-reported state is the
target state (exited) at every instant.  The claim requires ContainerWait to
return success as soon as the target state is observed; the docker backend
does, but the podman backend waits for the fixed state running instead and
fails, so the claim is false for every backend as stated. -/
theorem container_wait_podman_fixed_state_cex :
    podmanContainerWait (engineWaitFor (fun _ => "exited") 100) "exited" 30 5 =
      Except.error (GoError.engine "wait blocked: state never reached") ∧
    dockerContainerWait (fun _ => Except.ok "exited") "exited" 30 5 = Except.ok () := by
  constructor
  · rfl
  · rfl

/-- C4 (counterexample): every inspect call fails with the same engine error
and the deadline is reached.  The claim requires the last transient inspect
error (engine inspect failed) to be returned; the code returns the context
deadline-exceeded error instead, because the check closure maps every inspect
error to (false, nil) and the retry helper never sees it. -/
theorem container_wait_last_error_cex :
    dockerContainerWait (fun _ => Except.error (GoError.engine "inspect failed"))
        "running" 30 5 = Except.error GoError.deadlineExceeded ∧
    dockerContainerWait (fun _ => Except.error (GoError.engine "inspect failed"))
        "running" 30 5 ≠ Except.error (GoError.engine "inspect failed") := by
  constructor
  · rfl
  · intro h
    simp [dockerContainerWait, retryWithContext, retryWithContextAux, numTicks,
      dockerWaitCheck] at h

/-- C4 (amended): transient inspect errors before the deadline are swallowed
and polling continues; when the deadline is reached without the target state
having been observed, the returned error is the context deadline-exceeded
timeout error, regardless of any inspect errors encountered. -/
theorem container_wait_deadline_error (inspect : Nat → Except GoError String) (target : String)
    (timeout interval : Nat)
    (h : ¬ ∃ n, n < numTicks timeout interval ∧ inspect n = Except.ok target) :
    dockerContainerWait inspect target timeout interval =
      Except.error GoError.deadlineExceeded := by
  have hsplit : dockerContainerWait inspect target timeout interval = Except.ok () ∨
      dockerContainerWait inspect target timeout interval =
        Except.error GoError.deadlineExceeded := by
    unfold dockerContainerWait retryWithContext
    rw [dockerWaitCheck_eq_pollHit]
    exact retryAux_pure_ok_or_deadline (pollHit inspect target) (numTicks timeout interval) 0
  rcases hsplit with hok | hdl
  · exact absurd ((dockerContainerWait_ok_iff inspect target timeout interval).mp hok) h
  · exact hdl

/-- Witness for container_wait_deadline_error at a concrete always-failing
inspect trace. -/
theorem container_wait_deadline_error_witness :
    dockerContainerWait (fun _ => Except.error (GoError.engine "x")) "running" 30 5 =
      Except.error GoError.deadlineExceeded :=
  container_wait_deadline_error (fun _ => Except.error (GoError.engine "x")) "running" 30 5
    (by rintro ⟨n, hn, he⟩; simp at he)

/-! ## Exec Stream Capturer (docker.go ContainerExec 495-541, podman.go ContainerExec 293-342) -/

/-- The common ExecResult value: exit code plus the captured output and error
buffers (none models a nil buffer pointer). -/
structure ExecResult where
  exitCode : Int
  outBuffer : Option String
  errBuffer : Option String
  deriving DecidableEq, Repr

/-- Observable events of one ContainerExec invocation, in program order:
redirecting the process stdout to the pipe write end, the exec-create call,
the exec-start-and-attach call, starting the drain goroutine, blocking on the
drain-completion channel, the exec-inspect (exit code) call, closing the pipe
write end, and restoring the process stdout. -/
inductive ExecEv where
  | redirectStdout
  | execCreate
  | execAttach
  | drainStart
  | drainWait
  | execInspect
  | closeWriteEnd
  | restoreStdout
  deriving DecidableEq, Repr

/-- Engine responses consumed by docker.go ContainerExec: the exec-create
result, the attach result, the two demultiplexed streams drained by StdCopy,
the error of the drain goroutine (nil on a clean drain), and the
exec-inspect result. -/
structure DockerExecEnv where
  execCreate : Except GoError String
  execAttach : Except GoError Unit
  drainOut : String
  drainErrOut : String
  drainErr : Option GoError
  execInspect : Except GoError Int
  deriving DecidableEq, Repr

/-- docker.go ContainerExec: exec-create, exec-attach, start the StdCopy
drain goroutine, block on the outputDone channel (a non-nil drain error is
returned to the caller), then exec-inspect for the exit code.  Returns the
result together with the trace of events that occurred. -/
def dockerContainerExec (env : DockerExecEnv) : Except GoError ExecResult × List ExecEv :=
  match env.execCreate with
  | Except.error e => (Except.error e, [ExecEv.execCreate])
  | Except.ok _ =>
    match env.execAttach with
    | Except.error e => (Except.error e, [ExecEv.execCreate, ExecEv.execAttach])
    | Except.ok _ =>
      let evs := [ExecEv.execCreate, ExecEv.execAttach, ExecEv.drainStart, ExecEv.drainWait]
      match env.drainErr with
      | some e => (Except.error e, evs)
      | none =>
        match env.execInspect with
        | Except.error e => (Except.error e, evs ++ [ExecEv.execInspect])
        | Except.ok code =>
            (Except.ok { exitCode := code, outBuffer := some env.drainOut,
                         errBuffer := some env.drainErrOut },
             evs ++ [ExecEv.execInspect])

/-- The process-wide stdout handle: its original value, or the write end of
the temporary pipe substituted by podman.go ContainerExec. -/
inductive StdoutHandle where
  | original
  | pipeWriter
  deriving DecidableEq, Repr

/-- Where an attach stream of the exec is directed. -/
inductive StreamTarget where
  | pipeWriteEnd
  | processStderr
  deriving DecidableEq, Repr

/-- Engine responses consumed by podman.go ContainerExec: the exec-create
result, the exec-start-and-attach result, the bytes the exec wrote through
the pipe, the error (if any) of the io.Copy drain goroutine, and the
exec-inspect result. -/
structure PodmanExecEnv where
  execCreate : Except GoError String
  execStartAttach : Except GoError Unit
  pipeContent : String
  drainErr : Option GoError
  execInspect : Except GoError Int
  deriving DecidableEq, Repr

/-- Full outcome of one podman ContainerExec call: the returned value, the
final value of the process stdout handle, the configured attach targets of
the output and error streams (none when the attach configuration was never
built), and the event trace. -/
structure PodmanExecOutcome where
  result : Except GoError ExecResult
  finalStdout : StdoutHandle
  attachOutTarget : Option StreamTarget
  attachErrTarget : Option StreamTarget
  events : List ExecEv
  deriving DecidableEq, Repr

/-- podman.go ContainerExec: save os.Stdout, redirect it to a fresh pipe
write end, exec-create, build the attach streams (output to the redirected
stdout, error to the process stderr), exec-start-and-attach, start the
io.Copy drain goroutine, register the deferred cleanup (close write end,
restore stdout, wait for the drain), call exec-inspect, then run the
deferred cleanup and return.  The early error returns of exec-create and
exec-start-and-attach happen before the deferred cleanup is registered, so
they leave os.Stdout pointing at the pipe write end.  The error of the drain
goroutine is assigned to a variable nobody reads and therefore ignored, and
the errBuf variable is declared but never written. -/
def podmanContainerExec (env : PodmanExecEnv) : PodmanExecOutcome :=
  match env.execCreate with
  | Except.error e =>
      { result := Except.error e, finalStdout := StdoutHandle.pipeWriter,
        attachOutTarget := none, attachErrTarget := none,
        events := [ExecEv.redirectStdout, ExecEv.execCreate] }
  | Except.ok _ =>
    match env.execStartAttach with
    | Except.error e =>
        { result := Except.error e, finalStdout := StdoutHandle.pipeWriter,
          attachOutTarget := some StreamTarget.pipeWriteEnd,
          attachErrTarget := some StreamTarget.processStderr,
          events := [ExecEv.redirectStdout, ExecEv.execCreate, ExecEv.execAttach] }
    | Except.ok _ =>
      let evs := [ExecEv.redirectStdout, ExecEv.execCreate, ExecEv.execAttach,
                  ExecEv.drainStart, ExecEv.execInspect,
                  ExecEv.closeWriteEnd, ExecEv.restoreStdout, ExecEv.drainWait]
      match env.execInspect with
      | Except.error e =>
          { result := Except.error e, finalStdout := StdoutHandle.original,
            attachOutTarget := some StreamTarget.pipeWriteEnd,
            attachErrTarget := some StreamTarget.processStderr, events := evs }
      | Except.ok code =>
          { result := Except.ok { exitCode := code, outBuffer := some env.pipeContent,
                                  errBuffer := some "" },
            finalStdout := StdoutHandle.original,
            attachOutTarget := some StreamTarget.pipeWriteEnd,
            attachErrTarget := some StreamTarget.processStderr, events := evs }

/-- C2 (amended): in the docker backend, whenever the exit-code query occurs
its trace position is strictly after the block on the drain-completion
channel.  In the podman backend the order is reversed: whenever the
drain-completion wait occurs, the exit-code query has already happened —
the wait on the completion channel sits in a deferred step that runs after
the exec-inspect call (though still before the call returns). -/
theorem exec_inspect_ordering :
    (∀ env : DockerExecEnv, ExecEv.execInspect ∈ (dockerContainerExec env).2 →
        (dockerContainerExec env).2.indexOf ExecEv.drainWait <
          (dockerContainerExec env).2.indexOf ExecEv.execInspect) ∧
    (∀ env : PodmanExecEnv, ExecEv.drainWait ∈ (podmanContainerExec env).events →
        (podmanContainerExec env).events.indexOf ExecEv.execInspect <
          (podmanContainerExec env).events.indexOf ExecEv.drainWait) := by
  constructor
  · rintro ⟨ec, ea, o, eo, de, ei⟩ h
    cases ec <;> cases ea <;> cases de <;> cases ei <;>
      simp_all [dockerContainerExec, List.indexOf, List.findIdx, List.findIdx.go] <;>
        decide
  · rintro ⟨ec, ea, pc, de, ei⟩ h
    cases ec <;> cases ea <;> cases ei <;>
      simp_all [podmanContainerExec, List.indexOf, List.findIdx, List.findIdx.go] <;>
        decide

/-- Witness for exec_inspect_ordering at concrete all-success runs of both
backends. -/
theorem exec_inspect_ordering_witness :
    ((dockerContainerExec
        ⟨Except.ok "e1", Except.ok (), "out", "err", none, Except.ok 0⟩).2.indexOf
          ExecEv.drainWait <
      (dockerContainerExec
        ⟨Except.ok "e1", Except.ok (), "out", "err", none, Except.ok 0⟩).2.indexOf
          ExecEv.execInspect) ∧
    ((podmanContainerExec
        ⟨Except.ok "e1", Except.ok (), "out", none, Except.ok 0⟩).events.indexOf
          ExecEv.execInspect <
      (podmanContainerExec
        ⟨Except.ok "e1", Except.ok (), "out", none, Except.ok 0⟩).events.indexOf
          ExecEv.drainWait) :=
  ⟨exec_inspect_ordering.1 ⟨Except.ok "e1", Except.ok (), "out", "err", none, Except.ok 0⟩
      (by decide),
   exec_inspect_ordering.2 ⟨Except.ok "e1", Except.ok (), "out", none, Except.ok 0⟩
      (by decide)⟩

/-- C2 (counterexample): an all-success podman exec run.  Its event trace
places the exec-inspect (exit-code query) strictly before the block on the
drain-completion channel, refuting the claim that within one ContainerExec
invocation the exit code is queried only after the drain task has signalled
completion. -/
theorem podman_exec_inspect_before_drain_cex :
    (podmanContainerExec ⟨Except.ok "e1", Except.ok (), "out", none, Except.ok 0⟩).events =
      [ExecEv.redirectStdout, ExecEv.execCreate, ExecEv.execAttach, ExecEv.drainStart,
       ExecEv.execInspect, ExecEv.closeWriteEnd, ExecEv.restoreStdout, ExecEv.drainWait] ∧
    (podmanContainerExec
        ⟨Except.ok "e1", Except.ok (), "out", none, Except.ok 0⟩).events.indexOf
          ExecEv.execInspect <
      (podmanContainerExec
        ⟨Except.ok "e1", Except.ok (), "out", none, Except.ok 0⟩).events.indexOf
          ExecEv.drainWait := by
  constructor
  · rfl
  · decide

/-- C3: podman ContainerExec leaves the process stdout handle pointing at
the pipe write end on the exec-create failure path and on the
exec-start-and-attach failure path, because the restoring deferred cleanup
is registered only after those early error returns.  The claim (and the
stated design intent) requires the handle to equal its original value on
every exit path. -/
theorem podman_exec_stdout_not_restored :
    (podmanContainerExec ⟨Except.error (GoError.engine "exec create failed"), Except.ok (),
        "", none, Except.ok 0⟩).finalStdout = StdoutHandle.pipeWriter ∧
    (podmanContainerExec ⟨Except.ok "e1", Except.error (GoError.engine "attach failed"),
        "", none, Except.ok 0⟩).finalStdout = StdoutHandle.pipeWriter ∧
    (podmanContainerExec ⟨Except.ok "e1", Except.ok (), "", none,
        Except.ok 0⟩).finalStdout = StdoutHandle.original := by
  refine ⟨rfl, rfl, rfl⟩

/-- C5 (counterexample): a docker exec run whose drain goroutine fails while
the exec-inspect result (exit code 0) is obtainable.  The claim says the
drain error is swallowed and the obtainable exit-code result returned; the
docker code instead returns the drain error received on the completion
channel as the failure of ContainerExec. -/
theorem docker_drain_error_surfaced_cex :
    (dockerContainerExec ⟨Except.ok "e1", Except.ok (), "", "", some
        (GoError.drain "read failure"), Except.ok 0⟩).1 =
      Except.error (GoError.drain "read failure") ∧
    (dockerContainerExec ⟨Except.ok "e1", Except.ok (), "", "", some
        (GoError.drain "read failure"), Except.ok 0⟩).1 ≠
      Except.ok { exitCode := 0, outBuffer := some "", errBuffer := some "" } := by
  constructor
  · rfl
  · decide

/-- C5 (amended): the podman backend swallows drain-task errors — its entire
outcome is independent of the drain error — while the docker backend
surfaces a drain error as the error of ContainerExec whenever exec-create
and attach succeeded. -/
theorem exec_drain_error_handling :
    (∀ (env : PodmanExecEnv) (e : Option GoError),
        podmanContainerExec { env with drainErr := e } =
          podmanContainerExec { env with drainErr := none }) ∧
    (∀ (eid : String) (o eo : String) (e : GoError) (insp : Except GoError Int),
        (dockerContainerExec ⟨Except.ok eid, Except.ok (), o, eo, some e, insp⟩).1 =
          Except.error e) := by
  constructor
  · rintro ⟨ec, ea, pc, de, ei⟩ e
    cases ec <;> cases ea <;> cases ei <;> rfl
  · intro eid o eo e insp
    rfl

/-- C10: every successful podman ContainerExec returns an error buffer that
is non-nil but empty, and the error stream of the exec is attached to the
process stderr handle, never to the returned buffer. -/
theorem podman_exec_errbuffer_empty (env : PodmanExecEnv) (r : ExecResult)
    (h : (podmanContainerExec env).result = Except.ok r) :
    r.errBuffer = some "" ∧
      (podmanContainerExec env).attachErrTarget = some StreamTarget.processStderr := by
  rcases env with ⟨ec, ea, pc, de, ei⟩
  cases ec <;> cases ea <;> cases ei <;> simp_all [podmanContainerExec] <;>
    simp [← h]

/-- Witness for podman_exec_errbuffer_empty at a concrete successful run. -/
theorem podman_exec_errbuffer_empty_witness :
    ExecResult.errBuffer ⟨0, some "hello", some ""⟩ = some "" ∧
      (podmanContainerExec ⟨Except.ok "e1", Except.ok (), "hello", none,
        Except.ok 0⟩).attachErrTarget = some StreamTarget.processStderr :=
  podman_exec_errbuffer_empty ⟨Except.ok "e1", Except.ok (), "hello", none, Except.ok 0⟩
    ⟨0, some "hello", some ""⟩ rfl

/-! ## Pull-Progress Watchdog (docker.go lines 113-197) and ImagesPull decode loop (221-236) -/

/-- The lock-protected progress cell of docker.go: the latest decoded message
(none before the first event) and the wall-clock time of the latest update. -/
structure Progress where
  message : Option String
  timestamp : Nat
  deriving DecidableEq, Repr

/-- docker.go newProgress: the timestamp starts at the creation time. -/
def newProgress (now : Nat) : Progress :=
  { message := none, timestamp := now }

/-- docker.go progress.set: store the message and the current time. -/
def progressSet (p : Progress) (msg : String) (now : Nat) : Progress :=
  { message := some msg, timestamp := now }

/-- docker.go progress.get: the display string for the latest message and the
timestamp of the latest update. -/
def progressGet (p : Progress) : String × Nat :=
  match p.message with
  | none => ("No progress", p.timestamp)
  | some m => (m, p.timestamp)

/-- One event observed by the watchdog goroutine of progressReporter.start:
a ticker tick at wall time now, a progress record (set) at wall time now made
by the decode loop, or the stop signal (stopCh closed). -/
inductive WatchEv where
  | tick (now : Nat)
  | setMsg (msg : String) (now : Nat)
  | stop
  deriving DecidableEq, Repr

/-- How the watchdog goroutine ended: it invoked the cancellation function at
wall time t and returned; it received the stop signal and returned without
cancelling; or the supplied event trace ran out with the goroutine still
looping. -/
inductive WatchResult where
  | cancelled (t : Nat)
  | stopped
  | running
  deriving DecidableEq, Repr

/-- docker.go progressReporter.start, run over an interleaving of ticker
ticks, decode-loop set calls, and the stop signal.  On a tick the goroutine
reads the timestamp through get; when the elapsed time since it exceeds the
stall deadline it calls cancel and returns, otherwise it keeps looping.  On
the stop signal it returns without cancelling. -/
def watchdogRun (deadline : Nat) : Progress → List WatchEv → WatchResult
  | _, [] => WatchResult.running
  | p, WatchEv.tick now :: rest =>
      if now - (progressGet p).2 > deadline then WatchResult.cancelled now
      else watchdogRun deadline p rest
  | p, WatchEv.setMsg m now :: rest => watchdogRun deadline (progressSet p m now) rest
  | _, WatchEv.stop :: _ => WatchResult.stopped

/-- Whether the trace reaches the stop signal with every earlier tick finding
an elapsed time within the stall deadline (so the goroutine never cancels on
the way). -/
def reachesStopCleanly (deadline : Nat) : Progress → List WatchEv → Bool
  | _, [] => false
  | p, WatchEv.tick now :: rest =>
      decide (now - (progressGet p).2 ≤ deadline) && reachesStopCleanly deadline p rest
  | p, WatchEv.setMsg m now :: rest => reachesStopCleanly deadline (progressSet p m now) rest
  | _, WatchEv.stop :: _ => true

/-- C6: on any tick whose elapsed time since the most recently recorded
progress timestamp exceeds the stall deadline, the watchdog invokes the
cancellation function at that tick and terminates at once; and on any trace
that reaches the stop signal with no such tick before it, the watchdog
terminates without ever invoking the cancellation function. -/
theorem watchdog_tick_and_stop :
    (∀ (deadline : Nat) (p : Progress) (now : Nat) (rest : List WatchEv),
        now - (progressGet p).2 > deadline →
          watchdogRun deadline p (WatchEv.tick now :: rest) = WatchResult.cancelled now) ∧
    (∀ (deadline : Nat) (p : Progress) (evs : List WatchEv),
        reachesStopCleanly deadline p evs = true →
          watchdogRun deadline p evs = WatchResult.stopped) := by
  constructor
  · intro deadline p now rest h
    simp [watchdogRun, h]
  · intro deadline p evs
    induction evs generalizing p with
    | nil => intro h; simp [reachesStopCleanly] at h
    | cons ev rest ih =>
        intro h
        cases ev with
        | tick now =>
            simp [reachesStopCleanly] at h
            have hle : ¬ now - (progressGet p).2 > deadline := by omega
            simp [watchdogRun, hle]
            exact ih p h.2
        | setMsg m now =>
            simp [reachesStopCleanly] at h
            simp [watchdogRun]
            exact ih (progressSet p m now) h
        | stop => simp [watchdogRun]

/-- Witness for watchdog_tick_and_stop: a stalled tick cancels, and a trace
of one timely tick followed by the stop signal stops without cancelling. -/
theorem watchdog_tick_and_stop_witness :
    watchdogRun 5 (newProgress 0) [WatchEv.tick 100] = WatchResult.cancelled 100 ∧
      watchdogRun 5 (newProgress 0) [WatchEv.tick 3, WatchEv.stop] = WatchResult.stopped :=
  ⟨watchdog_tick_and_stop.1 5 (newProgress 0) 100 [] (by decide),
   watchdog_tick_and_stop.2 5 (newProgress 0) [WatchEv.tick 3, WatchEv.stop] (by decide)⟩

/-- The ticker trace of a pull that produces no progress event: starting from
poll index start, n ticks at wall times t0 + interval * (start + 1),
t0 + interval * (start + 2), and so on. -/
def tickTrace (t0 interval : Nat) : Nat → Nat → List WatchEv
  | _, 0 => []
  | start, Nat.succ n =>
      WatchEv.tick (t0 + interval * (start + 1)) :: tickTrace t0 interval (start + 1) n

theorem watchdog_tickTrace_cancels (t0 deadline interval : Nat) (hi : 0 < interval) :
    ∀ (n start : Nat), interval * start ≤ deadline →
      deadline / interval + 1 ≤ start + n →
      watchdogRun deadline (newProgress t0) (tickTrace t0 interval start n) =
        WatchResult.cancelled (t0 + interval * (deadline / interval + 1)) := by
  intro n
  induction n with
  | zero =>
      intro start hs hn
      have : interval * start ≥ interval * (deadline / interval + 1) :=
        Nat.mul_le_mul_left interval (by omega)
      have hdm := Nat.div_add_mod deadline interval
      have hmod : deadline % interval < interval := Nat.mod_lt _ hi
      have hgt : interval * (deadline / interval + 1) > deadline := by
        have e1 : interval * (deadline / interval + 1) =
            interval * (deadline / interval) + interval := by ring
        omega
      omega
  | succ n ih =>
      intro start hs hn
      have hts : (progressGet (newProgress t0)).2 = t0 := rfl
      by_cases hc : interval * (start + 1) > deadline
      · have hdm := Nat.div_add_mod deadline interval
        have hmod : deadline % interval < interval := Nat.mod_lt _ hi
        have hkdiv : start = deadline / interval := by
          have h1 : start ≤ deadline / interval :=
            (Nat.le_div_iff_mul_le hi).mpr (by rw [Nat.mul_comm]; omega)
          have h2 : ¬ (start + 1 ≤ deadline / interval) := by
            intro hle
            have : interval * (start + 1) ≤ interval * (deadline / interval) :=
              Nat.mul_le_mul_left interval hle
            omega
          omega
        have hcond : t0 + interval * (start + 1) - (progressGet (newProgress t0)).2 >
            deadline := by
          rw [hts]
          omega
        simp only [tickTrace, watchdogRun, if_pos hcond]
        rw [hkdiv]
      · have hcond : ¬ (t0 + interval * (start + 1) - (progressGet (newProgress t0)).2 >
            deadline) := by
          rw [hts]
          omega
        simp only [tickTrace, watchdogRun, if_neg hcond]
        exact ih (start + 1) (by omega) (by omega)

/-- C9: the progress timestamp of a fresh watchdog equals its creation time,
so a pull that never records a progress event is still cancelled: over the
ticker trace starting at creation time t0, the cancellation function is
invoked at a tick that is strictly later than the stall deadline yet at most
one check interval after the deadline has elapsed since creation. -/
theorem watchdog_no_progress_cancels (t0 deadline interval n : Nat)
    (hi : 0 < interval) (hn : deadline / interval + 1 ≤ n) :
    (newProgress t0).timestamp = t0 ∧
      ∃ tc, watchdogRun deadline (newProgress t0) (tickTrace t0 interval 0 n) =
          WatchResult.cancelled tc ∧
        deadline < tc - t0 ∧ tc - t0 ≤ deadline + interval := by
  refine ⟨rfl, t0 + interval * (deadline / interval + 1), ?_, ?_, ?_⟩
  · exact watchdog_tickTrace_cancels t0 deadline interval hi n 0 (by omega) (by omega)
  · have hdm := Nat.div_add_mod deadline interval
    have hmod : deadline % interval < interval := Nat.mod_lt _ hi
    have e1 : interval * (deadline / interval + 1) =
        interval * (deadline / interval) + interval := by ring
    omega
  · have hdm := Nat.div_add_mod deadline interval
    have e1 : interval * (deadline / interval + 1) =
        interval * (deadline / interval) + interval := by ring
    omega

/-- Witness for watchdog_no_progress_cancels with deadline 25, interval 10:
ticks at 10, 20, 30; the cancel fires at 30, between 25 and 35. -/
theorem watchdog_no_progress_cancels_witness :
    (0 : Nat) < 10 ∧ 25 / 10 + 1 ≤ 3 ∧
      ((newProgress 0).timestamp = 0 ∧
        ∃ tc, watchdogRun 25 (newProgress 0) (tickTrace 0 10 0 3) =
            WatchResult.cancelled tc ∧ 25 < tc - 0 ∧ tc - 0 ≤ 25 + 10) :=
  ⟨by decide, by decide, watchdog_no_progress_cancels 0 25 10 3 (by decide) (by decide)⟩

/-- One iteration input of the ImagesPull decode loop: either a successfully
decoded JSON message carrying an optional error field and a payload, or a
decoder failure. -/
inductive DecodeItem where
  | msg (errField : Option String) (payload : String)
  | decodeFail (e : String)
  deriving DecidableEq, Repr

/-- How the decode loop of docker.go ImagesPull ended. -/
inductive PullOutcome where
  | success
  | decodeError (e : String)
  | eventError (e : String)
  deriving DecidableEq, Repr

/-- docker.go ImagesPull decode loop (lines 221-236), with io.EOF modelled as
the end of the item list: a decode error returns that error; a decoded
message with a non-nil error field returns that error; otherwise the message
is recorded through reporter.set and the loop continues; end of stream is
success.  The second component is the list of recorded payloads in order. -/
def imagesPullLoop : List DecodeItem → List String → PullOutcome × List String
  | [], recorded => (PullOutcome.success, recorded)
  | DecodeItem.decodeFail e :: _, recorded => (PullOutcome.decodeError e, recorded)
  | DecodeItem.msg (some e) _ :: _, recorded => (PullOutcome.eventError e, recorded)
  | DecodeItem.msg none p :: rest, recorded => imagesPullLoop rest (recorded ++ [p])

/-- A decode item that neither fails to decode nor carries an error field. -/
def cleanItem : DecodeItem → Bool
  | DecodeItem.msg none _ => true
  | _ => false

/-- The payloads of the clean messages of a stream, in order. -/
def payloadList : List DecodeItem → List String
  | [] => []
  | DecodeItem.msg _ p :: rest => p :: payloadList rest
  | DecodeItem.decodeFail _ :: rest => payloadList rest

theorem imagesPullLoop_clean_append (tail : List DecodeItem) :
    ∀ (pre : List DecodeItem) (acc : List String), pre.all cleanItem = true →
      imagesPullLoop (pre ++ tail) acc = imagesPullLoop tail (acc ++ payloadList pre) := by
  intro pre
  induction pre with
  | nil =>
      intro acc h
      simp [payloadList]
  | cons it rest ih =>
      intro acc h
      rw [List.all_cons, Bool.and_eq_true] at h
      cases it with
      | msg ef p =>
          cases ef with
          | none =>
              have hcons : (DecodeItem.msg none p :: rest) ++ tail =
                  DecodeItem.msg none p :: (rest ++ tail) := rfl
              rw [hcons]
              show imagesPullLoop (rest ++ tail) (acc ++ [p]) =
                imagesPullLoop tail (acc ++ payloadList (DecodeItem.msg none p :: rest))
              rw [ih (acc ++ [p]) h.2]
              simp [payloadList, List.append_assoc]
          | some e => simp [cleanItem] at h
      | decodeFail e => simp [cleanItem] at h

/-- C7: the ImagesPull decode loop ends in exactly the three claimed ways.
A stream of only clean events ends at end-of-stream with success and every
event recorded in order; a stream whose first non-clean element is a decoder
failure returns that decode error; a stream whose first non-clean element is
an event with an error field returns that event error; in each failing case
the clean events before the failure were recorded and the loop stopped at
the failure. -/
theorem images_pull_loop_modes :
    (∀ (items : List DecodeItem), items.all cleanItem = true →
        imagesPullLoop items [] = (PullOutcome.success, payloadList items)) ∧
    (∀ (pre : List DecodeItem) (e : String) (rest : List DecodeItem),
        pre.all cleanItem = true →
          imagesPullLoop (pre ++ DecodeItem.decodeFail e :: rest) [] =
            (PullOutcome.decodeError e, payloadList pre)) ∧
    (∀ (pre : List DecodeItem) (e p : String) (rest : List DecodeItem),
        pre.all cleanItem = true →
          imagesPullLoop (pre ++ DecodeItem.msg (some e) p :: rest) [] =
            (PullOutcome.eventError e, payloadList pre)) := by
  refine ⟨?_, ?_, ?_⟩
  · intro items h
    have := imagesPullLoop_clean_append [] items [] h
    simpa [imagesPullLoop] using this
  · intro pre e rest h
    have := imagesPullLoop_clean_append (DecodeItem.decodeFail e :: rest) pre [] h
    simpa [imagesPullLoop] using this
  · intro pre e p rest h
    have := imagesPullLoop_clean_append (DecodeItem.msg (some e) p :: rest) pre [] h
    simpa [imagesPullLoop] using this

/-- Witness for images_pull_loop_modes on concrete one- and two-element
streams. -/
theorem images_pull_loop_modes_witness :
    imagesPullLoop [DecodeItem.msg none "a"] [] =
        (PullOutcome.success, ["a"]) ∧
      imagesPullLoop [DecodeItem.msg none "a", DecodeItem.decodeFail "bad"] [] =
        (PullOutcome.decodeError "bad", ["a"]) ∧
      imagesPullLoop [DecodeItem.msg (some "oops") "p"] [] =
        (PullOutcome.eventError "oops", []) :=
  ⟨images_pull_loop_modes.1 [DecodeItem.msg none "a"] rfl,
   images_pull_loop_modes.2.1 [DecodeItem.msg none "a"] "bad" [] rfl,
   images_pull_loop_modes.2.2 [] "oops" "p" [] rfl⟩

/-! ## Backend Loader / Dispatcher (main, lines 16-54 of the main program) -/

/-- The environment the loader consults: whether ./name.so exists on disk,
the result of plugin.Open, the result of p.Lookup of the Driver symbol, and
whether the looked-up symbol satisfies the driver.Driver interface. -/
structure LoaderEnv where
  moduleExists : Bool
  pluginOpen : Except String Unit
  lookupDriver : Except String Unit
  isDriver : Bool
  deriving DecidableEq, Repr

/-- Observable outcome of the backend-resolution part of main: the exit code
passed to os.Exit (none when the process did not exit during resolution),
everything printed so far in order, and the Capability Contract operations
invoked so far. -/
structure MainRun where
  exitCode : Option Nat
  printed : List String
  contractCalls : List String
  deriving DecidableEq, Repr

/-- The main program through backend resolution (argument check, module stat,
plugin.Open, Lookup of the Driver symbol, interface assertion), up to the
first Capability Contract calls.  Every resolution failure prints a
diagnostic and exits with status 1 before any contract operation; only after
the interface assertion succeeds does main call drv.New and then
drv.ImagesPull (the orchestration that follows those first contract calls is
outside the scope of the modelled claims and is cut off here). -/
def mainResolve (name : String) (env : LoaderEnv) : MainRun :=
  let moduleLine := "module:  ./" ++ name ++ ".so"
  if env.moduleExists = false then
    { exitCode := some 1,
      printed := [moduleLine, "Cannot find a driver named: " ++ name],
      contractCalls := [] }
  else
    match env.pluginOpen with
    | Except.error e =>
        { exitCode := some 1, printed := [moduleLine, e], contractCalls := [] }
    | Except.ok _ =>
        match env.lookupDriver with
        | Except.error e =>
            { exitCode := some 1, printed := [moduleLine, e], contractCalls := [] }
        | Except.ok _ =>
            if env.isDriver = false then
              { exitCode := some 1, printed := [moduleLine, "That is not a driver"],
                contractCalls := [] }
            else
              { exitCode := none, printed := [moduleLine],
                contractCalls := ["New", "ImagesPull"] }

/-- C8: whenever the named backend does not resolve to an existing,
contract-conforming module — the module file is missing, plugin.Open fails,
the Driver symbol lookup fails, or the symbol does not satisfy the driver
interface — main exits with status 1 after printing a diagnostic beyond the
module line, and no Capability Contract operation is invoked. -/
theorem loader_failure_no_contract_calls (name : String) (env : LoaderEnv)
    (h : env.moduleExists = false ∨ (∃ e, env.pluginOpen = Except.error e) ∨
         (∃ e, env.lookupDriver = Except.error e) ∨ env.isDriver = false) :
    (mainResolve name env).exitCode = some 1 ∧
      (mainResolve name env).contractCalls = [] ∧
      (mainResolve name env).printed.length = 2 := by
  rcases env with ⟨me, po, ld, isd⟩
  cases me <;> cases po <;> cases ld <;> cases isd <;>
    simp_all [mainResolve]

/-- Witness for loader_failure_no_contract_calls: a backend name whose module
file does not exist. -/
theorem loader_failure_no_contract_calls_witness :
    (mainResolve "fake" ⟨false, Except.ok (), Except.ok (), true⟩).exitCode = some 1 ∧
      (mainResolve "fake" ⟨false, Except.ok (), Except.ok (), true⟩).contractCalls = [] ∧
      (mainResolve "fake" ⟨false, Except.ok (), Except.ok (), true⟩).printed.length = 2 :=
  loader_failure_no_contract_calls "fake" ⟨false, Except.ok (), Except.ok (), true⟩
    (Or.inl rfl)
